import Mathlib

/-!
Verification of the selection-and-classification core of the Python
curve-matching assignment.

The embedding below translates the two core modules:

* `src/src/core/ideal_function_selector.py` — least-squares selection of one
  candidate ("ideal") curve per training series.  All arithmetic there is
  rational-valued field arithmetic on Python floats; it is embedded over `ℚ`
  so that every definition is executable.  Python's `float("inf")` sentinel
  for the running minimum is embedded as `Option ℚ` with `none` standing for
  infinity (every finite value compares below it), and Python's negative
  list indexing (the initial `best_function_index = -1`) is embedded by
  `pyGet` over `ℤ`.

* `src/src/core/test_mapper.py` — classification of test observations
  against chosen curves with the `max_deviation * sqrt(2)` threshold.  The
  threshold forces real arithmetic, so this module is embedded over `ℝ`
  (with `Real.sqrt`); its definitions are noncomputable only because real
  comparison is.

Fallible Python code (raising `ValueError` / `IndexError`, both wrapped into
`MappingError` by the source) is embedded with `Except`.
-/

/-- `src/src/models/models.py`, `TrainingData`: one row of training data.
The dataclass validates `len(y_values) == 4` at construction
(`__post_init__`), so the four y-values are embedded as `Fin 4 → α`. -/
structure TrainingData (α : Type) where
  x : α
  y_values : Fin 4 → α

/-- `src/src/models/models.py`, `IdealFunction`: one candidate curve, a
reference x and the y-values across the grid.  (The dataclass validates
nonemptiness of `y_values` at construction; that invariant is carried as a
hypothesis where a theorem needs it, not baked into the structure.) -/
structure IdealFunction (α : Type) where
  x : α
  y_values : List α

/-- `src/src/models/models.py`, `TestData`: one test observation with its
mutable outcome fields (`delta_y`, `ideal_function_no`), which Python
defaults to `None`. -/
structure TestData where
  x : ℝ
  y : ℝ
  delta_y : Option ℝ
  ideal_function_no : Option ℕ

/-- `IdealFunctionSelector.calculate_squared_deviations` (selector line 37):
`(training_y - ideal_y) ** 2`. -/
def calculate_squared_deviations (training_y ideal_y : ℚ) : ℚ :=
  (training_y - ideal_y) ^ 2

/-- The sum `sum(calculate_squared_deviations(t, i) for t, i in zip(...))`
from `sum_squared_deviations` (selector lines 59-62), as a total function on
the zipped lists. -/
def ssdQ (training_y_values ideal_y_values : List ℚ) : ℚ :=
  ((training_y_values.zip ideal_y_values).map
    fun p => calculate_squared_deviations p.1 p.2).sum

/-- `IdealFunctionSelector.sum_squared_deviations` (selector lines 39-62):
checks the two lengths first and raises `ValueError` on mismatch, otherwise
sums the squared deviations over the zip. -/
def sum_squared_deviations (training_y_values ideal_y_values : List ℚ) :
    Except Unit ℚ :=
  if training_y_values.length = ideal_y_values.length then
    .ok (ssdQ training_y_values ideal_y_values)
  else
    .error ()

/-- The failures `select_ideal_function` can run into inside its `try`
block, each wrapped into a `MappingError` by the source.  `lengthMismatch`
is the `ValueError` from `sum_squared_deviations`; its argument records how
many candidates' SSDs had already been computed when the failing length
check ran, making the failure point of the sequential loop observable.
`indexError` is the `IndexError` from `ideal_functions[-1]` on an empty
list. -/
inductive SelError where
  | lengthMismatch (scored : ℕ)
  | indexError
deriving DecidableEq

/-- The candidate loop of `select_ideal_function` (selector lines 97-109):
state `(minDev, best)` embeds Python's `(min_deviation, best_function_index)`
with `none` for the initial `float("inf")` (any finite `ssd` compares below
it, hence the `none` branch always updates) and `best : ℤ` for the initial
`-1`.  `idx` is the `enumerate` counter, `scored` the instrumentation
counter of completed SSD computations. -/
def scanCandidates (ty : List ℚ) :
    List (IdealFunction ℚ) → ℕ → Option ℚ → ℤ → ℕ →
    Except SelError (Option ℚ × ℤ)
  | [], _, minDev, best, _ => .ok (minDev, best)
  | f :: rest, idx, minDev, best, scored =>
    match sum_squared_deviations ty f.y_values with
    | .error _ => .error (.lengthMismatch scored)
    | .ok ssd =>
      match minDev with
      | none => scanCandidates ty rest (idx + 1) (some ssd) (idx : ℤ) (scored + 1)
      | some m =>
        if ssd < m then
          scanCandidates ty rest (idx + 1) (some ssd) (idx : ℤ) (scored + 1)
        else
          scanCandidates ty rest (idx + 1) (some m) best (scored + 1)

/-- Python list subscription `l[i]` for a possibly negative index: wraps a
negative `i` by the list length, and fails (`IndexError`, here `none`) when
the index is out of range either way. -/
def pyGet {α : Type} (l : List α) (i : ℤ) : Option α :=
  if 0 ≤ i then l[i.toNat]?
  else if 0 ≤ i + l.length then l[(i + l.length).toNat]? else none

/-- `IdealFunctionSelector.select_ideal_function` (selector lines 64-122):
extracts the training series `ty` for index `training_index`, scans all
candidates for the minimal SSD, then indexes `ideal_functions` with the
resulting `best_function_index` (Python semantics, so the initial `-1`
reaches `ideal_functions[-1]`) and recomputes the per-point absolute
deviations of the winner.  The source validates `0 <= training_index <= 3`
before the `try` block; `Fin 4` embeds that bound.  The returned middle
component is Python's `min_deviation` float, `none` standing for its
initial `inf`. -/
def select_ideal_function (training_data : List (TrainingData ℚ))
    (ideal_functions : List (IdealFunction ℚ)) (training_index : Fin 4) :
    Except SelError (ℤ × Option ℚ × List ℚ) :=
  let ty := training_data.map fun t => t.y_values training_index
  match scanCandidates ty ideal_functions 0 none (-1) 0 with
  | .error e => .error e
  | .ok (minDev, best) =>
    match pyGet ideal_functions best with
    | none => .error .indexError
    | some selected =>
      let devs := (ty.zip selected.y_values).map fun p => |p.1 - p.2|
      .ok (best, minDev, devs)

/-- Python's `max(deviations) if deviations else 0` from
`select_all_ideal_functions` (selector line 156). -/
def maxOfList : List ℚ → ℚ
  | [] => 0
  | d :: ds => ds.foldl max d

/-- One entry of the result dict of `select_all_ideal_functions` (selector
lines 153-158): keys `index`, `min_deviation`, `max_deviation`,
`deviations`. -/
structure SelectionRecord where
  index : ℤ
  min_deviation : Option ℚ
  max_deviation : ℚ
  deviations : List ℚ
deriving DecidableEq

/-- The four-entry result dict of `select_all_ideal_functions`, keys
`y1` … `y4`. -/
structure AllSelections where
  y1 : SelectionRecord
  y2 : SelectionRecord
  y3 : SelectionRecord
  y4 : SelectionRecord
deriving DecidableEq

/-- Builds one result-dict entry from `select_ideal_function`'s return
value (selector lines 153-158). -/
def mkRecord (r : ℤ × Option ℚ × List ℚ) : SelectionRecord :=
  { index := r.1
    min_deviation := r.2.1
    max_deviation := maxOfList r.2.2
    deviations := r.2.2 }

/-- `IdealFunctionSelector.select_all_ideal_functions` (selector lines
124-162): runs `select_ideal_function` for the four training indices in
order, short-circuiting on the first error (the source's `try` re-raises
any failure as `MappingError`). -/
def select_all_ideal_functions (training_data : List (TrainingData ℚ))
    (ideal_functions : List (IdealFunction ℚ)) :
    Except SelError AllSelections :=
  match select_ideal_function training_data ideal_functions 0 with
  | .error e => .error e
  | .ok r1 =>
    match select_ideal_function training_data ideal_functions 1 with
    | .error e => .error e
    | .ok r2 =>
      match select_ideal_function training_data ideal_functions 2 with
      | .error e => .error e
      | .ok r3 =>
        match select_ideal_function training_data ideal_functions 3 with
        | .error e => .error e
        | .ok r4 => .ok ⟨mkRecord r1, mkRecord r2, mkRecord r3, mkRecord r4⟩

/-- `TestDataMapper._find_closest_x` (mapper lines 144-170): returns `None`
for an empty curve, and otherwise — despite its name and docstring —
returns the constant index `0` for every `x_target` (the source sets
`closest_idx = 0` and returns it without ever reading `x_target`; the
`min_distance` variable is dead). -/
def find_closest_x (ideal_func : IdealFunction ℝ) (x_target : ℝ) : Option ℕ :=
  if ideal_func.y_values.isEmpty then none else some 0

/-- `TestDataMapper.map_test_point` (mapper lines 33-82): looks up the
chosen candidate (Python `IndexError` on a bad index becomes
`MappingError`, here `.error`), finds the grid index via
`_find_closest_x`, returns `None` unassigned if that lookup gives `None`,
otherwise compares `|y - ideal_y|` against `max_training_deviation *
sqrt(2)`; on success it mutates the point's outcome fields (returning the
updated point) and returns the 0-based candidate index, storing the 1-based
`selected_ideal_index + 1` in `ideal_function_no`. -/
noncomputable def map_test_point (test_point : TestData)
    (ideal_functions : List (IdealFunction ℝ)) (selected_ideal_index : ℕ)
    (max_training_deviation : ℝ) : Except Unit (Option ℕ × TestData) :=
  match ideal_functions[selected_ideal_index]? with
  | none => .error ()
  | some ideal_func =>
    match find_closest_x ideal_func test_point.x with
    | none => .ok (none, test_point)
    | some closest_idx =>
      match ideal_func.y_values[closest_idx]? with
      | none => .error ()
      | some ideal_y =>
        let deviation := |test_point.y - ideal_y|
        let threshold := max_training_deviation * Real.sqrt 2
        if deviation ≤ threshold then
          .ok (some selected_ideal_index,
            { test_point with
                delta_y := some deviation
                ideal_function_no := some (selected_ideal_index + 1) })
        else
          .ok (none, test_point)

/-- One entry of the `selected_ideal_indices` dict consumed by
`map_all_test_data` (mapper lines 115-126), for the case the claim assumes:
all four keys `y1` … `y4` present, each carrying an `index` and a
`max_deviation`. -/
structure SeriesSelection where
  index : ℕ
  max_deviation : ℝ

/-- The inner series loop of `map_all_test_data` (mapper lines 112-132):
tries the four selected candidates in key order and stops at the first one
`map_test_point` assigns (`break`); a `MappingError` from `map_test_point`
aborts everything. -/
noncomputable def try_series (test_point : TestData)
    (ideal_functions : List (IdealFunction ℝ)) (sel : Fin 4 → SeriesSelection) :
    List (Fin 4) → Except Unit (Option (ℕ × TestData))
  | [] => .ok none
  | key :: rest =>
    match map_test_point test_point ideal_functions (sel key).index
        (sel key).max_deviation with
    | .error e => .error e
    | .ok (some result, tp) => .ok (some (result, tp))
    | .ok (none, _) => try_series test_point ideal_functions sel rest

/-- `TestDataMapper.map_all_test_data` (mapper lines 84-142): for each test
point, tries the four series' chosen candidates in order `y1, y2, y3, y4`
and keeps the first assignment; an unassigned point gets both outcome
fields set to `None` and is kept as well.  Any exception aborts the whole
call (`MappingError`). -/
noncomputable def map_all_test_data (test_data : List TestData)
    (ideal_functions : List (IdealFunction ℝ)) (sel : Fin 4 → SeriesSelection) :
    Except Unit (List TestData) :=
  match test_data with
  | [] => .ok []
  | tp :: rest =>
    match try_series tp ideal_functions sel [0, 1, 2, 3] with
    | .error e => .error e
    | .ok outcome =>
      match map_all_test_data rest ideal_functions sel with
      | .error e => .error e
      | .ok rest' =>
        match outcome with
        | some (_, tp') => .ok (tp' :: rest')
        | none => .ok ({ tp with delta_y := none, ideal_function_no := none } :: rest')

/-- Inner scan of `nearestIndexSpec`: running best index and best distance. -/
noncomputable def nearestGo (x_target : ℝ) :
    List ℝ → ℕ → ℕ → ℝ → ℕ
  | [], _, bestIdx, _ => bestIdx
  | g :: gs, idx, bestIdx, bestDist =>
    if |g - x_target| < bestDist then nearestGo x_target gs (idx + 1) idx |g - x_target|
    else nearestGo x_target gs (idx + 1) bestIdx bestDist

/-- Modelled from the spec (section 4.2 step 1, absent from the source,
whose `_find_closest_x` never reads the observation's x): the grid index
whose x coordinate is nearest to the observation's x, first index winning
ties; `none` for an empty grid. -/
noncomputable def nearestIndexSpec (grid : List ℝ) (x_target : ℝ) : Option ℕ :=
  match grid with
  | [] => none
  | g :: gs => some (nearestGo x_target gs 1 0 |g - x_target|)

/-! ### Properties of the candidate scan -/

theorem ssd_ok_of_len (ty : List ℚ) (f : IdealFunction ℚ)
    (hf : f.y_values.length = ty.length) :
    sum_squared_deviations ty f.y_values = .ok (ssdQ ty f.y_values) := by
  unfold sum_squared_deviations
  rw [if_pos hf.symm]

theorem ssd_err_of_len (ty : List ℚ) (f : IdealFunction ℚ)
    (hf : f.y_values.length ≠ ty.length) :
    sum_squared_deviations ty f.y_values = .error () := by
  unfold sum_squared_deviations
  rw [if_neg (fun h => hf h.symm)]

theorem scanCandidates_some_spec (ty : List ℚ) (l : List (IdealFunction ℚ)) :
    ∀ (idx : ℕ) (m : ℚ) (b : ℤ) (s : ℕ),
      (∀ f ∈ l, f.y_values.length = ty.length) →
      ∃ (m' : ℚ) (b' : ℤ), scanCandidates ty l idx (some m) b s = .ok (some m', b') ∧
        m' ≤ m ∧
        (∀ (j : ℕ) (fj : IdealFunction ℚ), l[j]? = some fj → m' ≤ ssdQ ty fj.y_values) ∧
        ((m' = m ∧ b' = b) ∨
          ∃ (j : ℕ) (fj : IdealFunction ℚ), l[j]? = some fj ∧ b' = (idx : ℤ) + (j : ℤ) ∧
            m' = ssdQ ty fj.y_values ∧ m' < m ∧
            ∀ (i : ℕ) (fi : IdealFunction ℚ), i < j → l[i]? = some fi →
              m' < ssdQ ty fi.y_values) := by
  induction l with
  | nil =>
    intro idx m b s _
    refine ⟨m, b, rfl, le_refl m, ?_, Or.inl ⟨rfl, rfl⟩⟩
    intro j fj h
    rw [List.getElem?_nil] at h
    cases h
  | cons f rest ih =>
    intro idx m b s hlen
    have hf : f.y_values.length = ty.length := hlen f (List.mem_cons_self f rest)
    have hrest : ∀ g ∈ rest, g.y_values.length = ty.length :=
      fun g hg => hlen g (List.mem_cons_of_mem f hg)
    by_cases hlt : ssdQ ty f.y_values < m
    · have hstep : scanCandidates ty (f :: rest) idx (some m) b s =
          scanCandidates ty rest (idx + 1) (some (ssdQ ty f.y_values)) (idx : ℤ) (s + 1) := by
        simp only [scanCandidates, ssd_ok_of_len ty f hf]
        rw [if_pos hlt]
      obtain ⟨m', b', heq, hle, hall, hdisj⟩ :=
        ih (idx + 1) (ssdQ ty f.y_values) (idx : ℤ) (s + 1) hrest
      refine ⟨m', b', hstep.trans heq, le_of_lt (lt_of_le_of_lt hle hlt), ?_, Or.inr ?_⟩
      · intro j fj hget
        cases j with
        | zero =>
          rw [List.getElem?_cons_zero] at hget
          cases hget
          exact hle
        | succ j =>
          rw [List.getElem?_cons_succ] at hget
          exact hall j fj hget
      · rcases hdisj with ⟨hm', hb'⟩ | ⟨j, fj, hget, hb', hm', hm'lt, hbefore⟩
        · refine ⟨0, f, List.getElem?_cons_zero, ?_, hm', hm' ▸ hlt, ?_⟩
          · rw [hb']
            simp
          · intro i fi hi _
            exact absurd hi (Nat.not_lt_zero i)
        · refine ⟨j + 1, fj, ?_, ?_, hm', lt_trans hm'lt hlt, ?_⟩
          · rw [List.getElem?_cons_succ]
            exact hget
          · rw [hb']
            push_cast
            ring
          · intro i fi hi hgeti
            cases i with
            | zero =>
              rw [List.getElem?_cons_zero] at hgeti
              cases hgeti
              exact hm'lt
            | succ i =>
              rw [List.getElem?_cons_succ] at hgeti
              exact hbefore i fi (Nat.lt_of_succ_lt_succ hi) hgeti
    · have hstep : scanCandidates ty (f :: rest) idx (some m) b s =
          scanCandidates ty rest (idx + 1) (some m) b (s + 1) := by
        simp only [scanCandidates, ssd_ok_of_len ty f hf]
        rw [if_neg hlt]
      have hmle : m ≤ ssdQ ty f.y_values := le_of_not_lt hlt
      obtain ⟨m', b', heq, hle, hall, hdisj⟩ := ih (idx + 1) m b (s + 1) hrest
      refine ⟨m', b', hstep.trans heq, hle, ?_, ?_⟩
      · intro j fj hget
        cases j with
        | zero =>
          rw [List.getElem?_cons_zero] at hget
          cases hget
          exact le_trans hle hmle
        | succ j =>
          rw [List.getElem?_cons_succ] at hget
          exact hall j fj hget
      · rcases hdisj with ⟨hm', hb'⟩ | ⟨j, fj, hget, hb', hm', hm'lt, hbefore⟩
        · exact Or.inl ⟨hm', hb'⟩
        · refine Or.inr ⟨j + 1, fj, ?_, ?_, hm', hm'lt, ?_⟩
          · rw [List.getElem?_cons_succ]
            exact hget
          · rw [hb']
            push_cast
            ring
          · intro i fi hi hgeti
            cases i with
            | zero =>
              rw [List.getElem?_cons_zero] at hgeti
              cases hgeti
              exact lt_of_lt_of_le hm'lt hmle
            | succ i =>
              rw [List.getElem?_cons_succ] at hgeti
              exact hbefore i fi (Nat.lt_of_succ_lt_succ hi) hgeti

theorem scanCandidates_none_spec (ty : List ℚ) (l : List (IdealFunction ℚ))
    (idx : ℕ) (b : ℤ) (s : ℕ)
    (hlen : ∀ f ∈ l, f.y_values.length = ty.length) (hne : l ≠ []) :
    ∃ (m' : ℚ) (j : ℕ) (fj : IdealFunction ℚ),
      scanCandidates ty l idx none b s = .ok (some m', (idx : ℤ) + (j : ℤ)) ∧
      l[j]? = some fj ∧ m' = ssdQ ty fj.y_values ∧
      (∀ (i : ℕ) (fi : IdealFunction ℚ), l[i]? = some fi → m' ≤ ssdQ ty fi.y_values) ∧
      (∀ (i : ℕ) (fi : IdealFunction ℚ), i < j → l[i]? = some fi →
        m' < ssdQ ty fi.y_values) := by
  match l, hne with
  | f :: rest, _ =>
    have hf : f.y_values.length = ty.length := hlen f (List.mem_cons_self f rest)
    have hrest : ∀ g ∈ rest, g.y_values.length = ty.length :=
      fun g hg => hlen g (List.mem_cons_of_mem f hg)
    have hstep : scanCandidates ty (f :: rest) idx none b s =
        scanCandidates ty rest (idx + 1) (some (ssdQ ty f.y_values)) (idx : ℤ) (s + 1) := by
      simp only [scanCandidates, ssd_ok_of_len ty f hf]
    obtain ⟨m', b', heq, hle, hall, hdisj⟩ :=
      scanCandidates_some_spec ty rest (idx + 1) (ssdQ ty f.y_values) (idx : ℤ) (s + 1) hrest
    rcases hdisj with ⟨hm', hb'⟩ | ⟨j, fj, hget, hb', hm', hm'lt, hbefore⟩
    · refine ⟨m', 0, f, ?_, List.getElem?_cons_zero, hm', ?_, ?_⟩
      · rw [hstep, heq, hb']
        simp
      · intro i fi hget
        cases i with
        | zero =>
          rw [List.getElem?_cons_zero] at hget
          cases hget
          exact le_of_eq hm'
        | succ i =>
          rw [List.getElem?_cons_succ] at hget
          exact hall i fi hget
      · intro i fi hi _
        exact absurd hi (Nat.not_lt_zero i)
    · refine ⟨m', j + 1, fj, ?_, ?_, hm', ?_, ?_⟩
      · rw [hstep, heq, hb']
        congr 2
        push_cast
        ring
      · rw [List.getElem?_cons_succ]
        exact hget
      · intro i fi hget
        cases i with
        | zero =>
          rw [List.getElem?_cons_zero] at hget
          cases hget
          exact le_of_lt hm'lt
        | succ i =>
          rw [List.getElem?_cons_succ] at hget
          exact hall i fi hget
      · intro i fi hi hgeti
        cases i with
        | zero =>
          rw [List.getElem?_cons_zero] at hgeti
          cases hgeti
          exact hm'lt
        | succ i =>
          rw [List.getElem?_cons_succ] at hgeti
          exact hbefore i fi (Nat.lt_of_succ_lt_succ hi) hgeti

theorem pyGet_natCast {α : Type} (l : List α) (j : ℕ) : pyGet l (j : ℤ) = l[j]? := by
  unfold pyGet
  rw [if_pos (Int.natCast_nonneg j), Int.toNat_natCast]

theorem select_spec (td : List (TrainingData ℚ)) (fns : List (IdealFunction ℚ))
    (ti : Fin 4) (hne : fns ≠ [])
    (hlen : ∀ f ∈ fns, f.y_values.length = td.length) :
    ∃ (j : ℕ) (fj : IdealFunction ℚ) (m : ℚ),
      select_ideal_function td fns ti =
        .ok ((j : ℤ), some m,
          ((td.map fun t => t.y_values ti).zip fj.y_values).map fun p => |p.1 - p.2|) ∧
      fns[j]? = some fj ∧
      m = ssdQ (td.map fun t => t.y_values ti) fj.y_values ∧
      (∀ (i : ℕ) (fi : IdealFunction ℚ), fns[i]? = some fi →
        m ≤ ssdQ (td.map fun t => t.y_values ti) fi.y_values) ∧
      (∀ (i : ℕ) (fi : IdealFunction ℚ), i < j → fns[i]? = some fi →
        m < ssdQ (td.map fun t => t.y_values ti) fi.y_values) := by
  have hlen' : ∀ f ∈ fns,
      f.y_values.length = (td.map fun t => t.y_values ti).length := by
    intro f hf
    rw [List.length_map]
    exact hlen f hf
  obtain ⟨m', j, fj, heq, hget, hm, hmin, hbefore⟩ :=
    scanCandidates_none_spec (td.map fun t => t.y_values ti) fns 0 (-1) 0 hlen' hne
  refine ⟨j, fj, m', ?_, hget, hm, hmin, hbefore⟩
  unfold select_ideal_function
  dsimp only
  rw [heq]
  have hzero : ((0 : ℕ) : ℤ) + (j : ℤ) = (j : ℤ) := by push_cast; ring
  rw [hzero]
  dsimp only
  rw [pyGet_natCast, hget]

/-- Claim C4: for every measured series (training index) and nonempty
candidate list whose curves all match the training data's length, if two or
more candidates achieve the exact minimum SSD, `select_ideal_function`
returns the candidate with the lowest index: the chosen index `j` attains
the returned minimal SSD `m`, `m` is a lower bound on every candidate's
SSD, and every candidate attaining `m` has index at least `j`
(first-seen-wins under the ascending scan). -/
theorem select_tie_break_lowest_index (td : List (TrainingData ℚ))
    (fns : List (IdealFunction ℚ)) (ti : Fin 4) (hne : fns ≠ [])
    (hlen : ∀ f ∈ fns, f.y_values.length = td.length) :
    ∃ (j : ℕ) (fj : IdealFunction ℚ) (m : ℚ) (devs : List ℚ),
      select_ideal_function td fns ti = .ok ((j : ℤ), some m, devs) ∧
      fns[j]? = some fj ∧
      ssdQ (td.map fun t => t.y_values ti) fj.y_values = m ∧
      (∀ (i : ℕ) (fi : IdealFunction ℚ), fns[i]? = some fi →
        m ≤ ssdQ (td.map fun t => t.y_values ti) fi.y_values) ∧
      (∀ (i : ℕ) (fi : IdealFunction ℚ), fns[i]? = some fi →
        ssdQ (td.map fun t => t.y_values ti) fi.y_values = m → j ≤ i) := by
  obtain ⟨j, fj, m, heq, hget, hm, hmin, hbefore⟩ := select_spec td fns ti hne hlen
  refine ⟨j, fj, m, _, heq, hget, hm.symm, hmin, ?_⟩
  intro i fi hgeti hssd
  by_contra hlt
  have hij : i < j := Nat.lt_of_not_le hlt
  exact absurd hssd (ne_of_gt (hbefore i fi hij hgeti))

/-- Witness for C4 at the spec's concrete scenario 3 shape: two candidates
both achieving the minimal SSD 0, the lower index 0 chosen. -/
theorem select_tie_break_lowest_index_witness :
    ∃ (j : ℕ) (fj : IdealFunction ℚ) (m : ℚ) (devs : List ℚ),
      select_ideal_function [⟨0, fun _ => 1⟩] [⟨0, [1]⟩, ⟨0, [1]⟩] 0 =
        .ok ((j : ℤ), some m, devs) ∧
      ([⟨0, [1]⟩, ⟨0, [1]⟩] : List (IdealFunction ℚ))[j]? = some fj ∧
      ssdQ (([⟨0, fun _ => 1⟩] : List (TrainingData ℚ)).map fun t => t.y_values 0)
        fj.y_values = m ∧
      (∀ (i : ℕ) (fi : IdealFunction ℚ),
        ([⟨0, [1]⟩, ⟨0, [1]⟩] : List (IdealFunction ℚ))[i]? = some fi →
        m ≤ ssdQ (([⟨0, fun _ => 1⟩] : List (TrainingData ℚ)).map fun t => t.y_values 0)
          fi.y_values) ∧
      (∀ (i : ℕ) (fi : IdealFunction ℚ),
        ([⟨0, [1]⟩, ⟨0, [1]⟩] : List (IdealFunction ℚ))[i]? = some fi →
        ssdQ (([⟨0, fun _ => 1⟩] : List (TrainingData ℚ)).map fun t => t.y_values 0)
          fi.y_values = m → j ≤ i) :=
  select_tie_break_lowest_index [⟨0, fun _ => 1⟩] [⟨0, [1]⟩, ⟨0, [1]⟩] 0
    (List.cons_ne_nil _ _)
    (by decide)

/-- Claim C6: for every measured series over a nonempty grid and nonempty
candidate list of matching lengths, the candidate chosen by
`select_ideal_function` minimizes the sum of squared deviations: the
returned minimal SSD `m` is the chosen candidate's SSD and satisfies
`m ≤ SSD(c)` for every candidate `c`. -/
theorem select_minimizes_ssd (td : List (TrainingData ℚ))
    (fns : List (IdealFunction ℚ)) (ti : Fin 4) (htd : td ≠ [])
    (hne : fns ≠ []) (hlen : ∀ f ∈ fns, f.y_values.length = td.length) :
    ∃ (j : ℕ) (fj : IdealFunction ℚ) (m : ℚ) (devs : List ℚ),
      select_ideal_function td fns ti = .ok ((j : ℤ), some m, devs) ∧
      fns[j]? = some fj ∧
      m = ssdQ (td.map fun t => t.y_values ti) fj.y_values ∧
      ∀ c ∈ fns, m ≤ ssdQ (td.map fun t => t.y_values ti) c.y_values := by
  obtain ⟨j, fj, m, heq, hget, hm, hmin, _⟩ := select_spec td fns ti hne hlen
  refine ⟨j, fj, m, _, heq, hget, hm, ?_⟩
  intro c hc
  obtain ⟨i, hgeti⟩ := List.mem_iff_getElem?.mp hc
  exact hmin i c hgeti

/-- Witness for C6 at the spec's concrete scenario 1: measured series
`[1, 2]`, candidate A `[1, 2]` (exact match, SSD 0), candidate B `[5, 6]`;
the chosen candidate's SSD bounds both candidates' SSDs. -/
theorem select_minimizes_ssd_witness :
    ∃ (j : ℕ) (fj : IdealFunction ℚ) (m : ℚ) (devs : List ℚ),
      select_ideal_function [⟨0, fun _ => 1⟩, ⟨0, fun _ => 2⟩]
        [⟨0, [1, 2]⟩, ⟨0, [5, 6]⟩] 0 = .ok ((j : ℤ), some m, devs) ∧
      ([⟨0, [1, 2]⟩, ⟨0, [5, 6]⟩] : List (IdealFunction ℚ))[j]? = some fj ∧
      m = ssdQ (([⟨0, fun _ => 1⟩, ⟨0, fun _ => 2⟩] :
        List (TrainingData ℚ)).map fun t => t.y_values 0) fj.y_values ∧
      ∀ c ∈ ([⟨0, [1, 2]⟩, ⟨0, [5, 6]⟩] : List (IdealFunction ℚ)),
        m ≤ ssdQ (([⟨0, fun _ => 1⟩, ⟨0, fun _ => 2⟩] :
          List (TrainingData ℚ)).map fun t => t.y_values 0) c.y_values :=
  select_minimizes_ssd [⟨0, fun _ => 1⟩, ⟨0, fun _ => 2⟩]
    [⟨0, [1, 2]⟩, ⟨0, [5, 6]⟩] 0 (List.cons_ne_nil _ _) (List.cons_ne_nil _ _)
    (by decide)

theorem scanCandidates_mismatch (ty : List ℚ) (l : List (IdealFunction ℚ)) :
    ∀ (k : ℕ) (fk : IdealFunction ℚ) (idx : ℕ) (minDev : Option ℚ) (b : ℤ) (s : ℕ),
      l[k]? = some fk → fk.y_values.length ≠ ty.length →
      (∀ (i : ℕ) (fi : IdealFunction ℚ), i < k → l[i]? = some fi →
        fi.y_values.length = ty.length) →
      scanCandidates ty l idx minDev b s = .error (.lengthMismatch (s + k)) := by
  induction l with
  | nil =>
    intro k fk idx minDev b s hk _ _
    rw [List.getElem?_nil] at hk
    cases hk
  | cons f rest ih =>
    intro k fk idx minDev b s hk hmis hfirst
    cases k with
    | zero =>
      rw [List.getElem?_cons_zero] at hk
      cases hk
      have herr := ssd_err_of_len ty f hmis
      cases minDev with
      | none => simp only [scanCandidates, herr, Nat.add_zero]
      | some m => simp only [scanCandidates, herr, Nat.add_zero]
    | succ k =>
      rw [List.getElem?_cons_succ] at hk
      have hf : f.y_values.length = ty.length :=
        hfirst 0 f (Nat.succ_pos k) List.getElem?_cons_zero
      have hrest : ∀ (i : ℕ) (fi : IdealFunction ℚ), i < k → rest[i]? = some fi →
          fi.y_values.length = ty.length := by
        intro i fi hi hgeti
        refine hfirst (i + 1) fi (Nat.succ_lt_succ hi) ?_
        rw [List.getElem?_cons_succ]
        exact hgeti
      have hsucc : s + 1 + k = s + (k + 1) := by omega
      cases minDev with
      | none =>
        have hstep : scanCandidates ty (f :: rest) idx none b s =
            scanCandidates ty rest (idx + 1) (some (ssdQ ty f.y_values)) (idx : ℤ) (s + 1) := by
          simp only [scanCandidates, ssd_ok_of_len ty f hf]
        rw [hstep, ih k fk (idx + 1) (some (ssdQ ty f.y_values)) (idx : ℤ) (s + 1) hk hmis hrest,
          hsucc]
      | some m =>
        by_cases hlt : ssdQ ty f.y_values < m
        · have hstep : scanCandidates ty (f :: rest) idx (some m) b s =
              scanCandidates ty rest (idx + 1) (some (ssdQ ty f.y_values)) (idx : ℤ) (s + 1) := by
            simp only [scanCandidates, ssd_ok_of_len ty f hf]
            rw [if_pos hlt]
          rw [hstep, ih k fk (idx + 1) (some (ssdQ ty f.y_values)) (idx : ℤ) (s + 1) hk hmis hrest,
            hsucc]
        · have hstep : scanCandidates ty (f :: rest) idx (some m) b s =
              scanCandidates ty rest (idx + 1) (some m) b (s + 1) := by
            simp only [scanCandidates, ssd_ok_of_len ty f hf]
            rw [if_neg hlt]
          rw [hstep, ih k fk (idx + 1) (some m) b (s + 1) hk hmis hrest, hsucc]

/-- Counterexample for C7 as stated: with training data of length 2 and
candidates `[len 2, len 1]`, selection does fail on the length mismatch,
but the error is raised only at the second candidate, after the first
candidate's SSD has already been computed — the `lengthMismatch` payload
records 1 completed SSD computation, not 0, so the error is not raised
"before any SSD computation begins". -/
theorem select_mismatch_after_partial_scoring :
    select_ideal_function [⟨0, fun _ => 1⟩, ⟨0, fun _ => 1⟩]
      [⟨0, [1, 1]⟩, ⟨0, [1]⟩] 0 = .error (.lengthMismatch 1) := rfl

/-- Claim C7, amended: for every input where some candidate curve's length
differs from the measured series' length, `select_ideal_function` fails
with a length-mismatch error and produces no selection result (no silent
truncation); the error is raised upon reaching the first mismatched
candidate in scan order, so the `k` candidates preceding it — and only
those — have already been scored when it is raised (the claim's stronger
"before any SSD computation begins" fails when `k > 0`). -/
theorem select_fails_at_first_mismatch (td : List (TrainingData ℚ))
    (fns : List (IdealFunction ℚ)) (ti : Fin 4) (k : ℕ)
    (fk : IdealFunction ℚ) (hk : fns[k]? = some fk)
    (hmis : fk.y_values.length ≠ td.length)
    (hfirst : ∀ (i : ℕ) (fi : IdealFunction ℚ), i < k → fns[i]? = some fi →
      fi.y_values.length = td.length) :
    select_ideal_function td fns ti = .error (.lengthMismatch k) := by
  have hmis' : fk.y_values.length ≠ (td.map fun t => t.y_values ti).length := by
    rw [List.length_map]
    exact hmis
  have hfirst' : ∀ (i : ℕ) (fi : IdealFunction ℚ), i < k → fns[i]? = some fi →
      fi.y_values.length = (td.map fun t => t.y_values ti).length := by
    intro i fi hi hgeti
    rw [List.length_map]
    exact hfirst i fi hi hgeti
  have hscan := scanCandidates_mismatch (td.map fun t => t.y_values ti) fns k fk 0 none (-1) 0
    hk hmis' hfirst'
  unfold select_ideal_function
  dsimp only
  rw [hscan]
  dsimp only
  rw [Nat.zero_add]

/-- Witness for the amended C7 at the counterexample input: the mismatch at
candidate index 1 (curve length 1 against measured length 2) aborts
selection with `lengthMismatch 1`. -/
theorem select_fails_at_first_mismatch_witness :
    select_ideal_function [⟨0, fun _ => 1⟩, ⟨0, fun _ => 1⟩]
      [⟨0, [1, 1]⟩, ⟨0, [1]⟩] 0 = .error (.lengthMismatch 1) :=
  select_fails_at_first_mismatch [⟨0, fun _ => 1⟩, ⟨0, fun _ => 1⟩]
    [⟨0, [1, 1]⟩, ⟨0, [1]⟩] 0 1 ⟨0, [1]⟩ rfl (by decide)
    (by
      intro i fi hi hgeti
      cases i with
      | zero =>
        rw [List.getElem?_cons_zero] at hgeti
        cases hgeti
        rfl
      | succ i => exact absurd hi (by omega))

/-- Claim C8: with zero candidate curves, and likewise with zero measured
points (every constructible candidate curve being nonempty, the
`IdealFunction` dataclass invariant), `select_all_ideal_functions` fails
with a fatal error surfaced to the caller and produces no selection
result.  With zero candidates the scan leaves `best_function_index = -1`
and `ideal_functions[-1]` raises `IndexError` on the empty list; with zero
measured points the first (nonempty) candidate fails the length check. -/
theorem select_all_fails_on_empty_inputs (td : List (TrainingData ℚ))
    (fns : List (IdealFunction ℚ)) (hcand : ∀ f ∈ fns, f.y_values ≠ [])
    (h : fns = [] ∨ td = []) :
    ∃ e, select_all_ideal_functions td fns = .error e := by
  have hfail : ∃ e, select_ideal_function td fns 0 = .error e := by
    rcases h with hfns | htd
    · subst hfns
      exact ⟨.indexError, rfl⟩
    · subst htd
      cases fns with
      | nil => exact ⟨.indexError, rfl⟩
      | cons f rest =>
        refine ⟨.lengthMismatch 0, ?_⟩
        have hf : f.y_values.length ≠ (([] : List (TrainingData ℚ)).map
            fun t => t.y_values 0).length := by
          simp only [List.map_nil, List.length_nil]
          intro hzero
          exact hcand f (List.mem_cons_self f rest) (List.length_eq_zero.mp hzero)
        have herr := ssd_err_of_len _ f hf
        unfold select_ideal_function
        dsimp only
        simp only [scanCandidates, herr]
    
  obtain ⟨e, he⟩ := hfail
  refine ⟨e, ?_⟩
  unfold select_all_ideal_functions
  rw [he]

/-- Witness for C8 at the empty input (zero candidates and zero measured
points): selection fails. -/
theorem select_all_fails_on_empty_inputs_witness :
    ∃ e, select_all_ideal_functions ([] : List (TrainingData ℚ))
      ([] : List (IdealFunction ℚ)) = .error e :=
  select_all_fails_on_empty_inputs [] [] (by intro f hf; cases hf) (Or.inl rfl)

/-- Claim C9: `select_all_ideal_functions` is a deterministic pure function
of its inputs — it is embedded as a pure Lean function (the source touches
no state: it only reads its arguments and builds new lists), so two runs on
identical training data and candidate curves return identical
`AllSelections` records, and input mutation cannot occur by construction. -/
theorem select_all_deterministic (td td' : List (TrainingData ℚ))
    (fns fns' : List (IdealFunction ℚ)) (h1 : td = td') (h2 : fns = fns') :
    select_all_ideal_functions td fns = select_all_ideal_functions td' fns' := by
  rw [h1, h2]

/-- Witness for C9 at a concrete input: two runs agree. -/
theorem select_all_deterministic_witness :
    select_all_ideal_functions [⟨0, fun _ => 1⟩] [⟨0, [1]⟩, ⟨0, [2]⟩] =
      select_all_ideal_functions [⟨0, fun _ => 1⟩] [⟨0, [1]⟩, ⟨0, [2]⟩] :=
  select_all_deterministic [⟨0, fun _ => 1⟩] [⟨0, fun _ => 1⟩]
    [⟨0, [1]⟩, ⟨0, [2]⟩] [⟨0, [1]⟩, ⟨0, [2]⟩] rfl rfl

/-! ### Properties of the test-data mapper -/

theorem one_le_sqrt_two : (1 : ℝ) ≤ Real.sqrt 2 := by
  rw [show (1 : ℝ) = Real.sqrt 1 from Real.sqrt_one.symm]
  exact Real.sqrt_le_sqrt (by norm_num)

theorem isEmpty_false_of_getElem (fk : IdealFunction ℝ) (y0 : ℝ)
    (hy0 : fk.y_values[0]? = some y0) : fk.y_values.isEmpty = false := by
  cases h : fk.y_values with
  | nil =>
    rw [h, List.getElem?_nil] at hy0
    cases hy0
  | cons a l => rfl

theorem map_test_point_assigns (tp : TestData) (fns : List (IdealFunction ℝ))
    (k : ℕ) (m : ℝ) (fk : IdealFunction ℝ) (y0 : ℝ)
    (hk : fns[k]? = some fk) (hy0 : fk.y_values[0]? = some y0)
    (hle : |tp.y - y0| ≤ m * Real.sqrt 2) :
    map_test_point tp fns k m = .ok (some k,
      { tp with delta_y := some |tp.y - y0|, ideal_function_no := some (k + 1) }) := by
  have hne := isEmpty_false_of_getElem fk y0 hy0
  unfold map_test_point find_closest_x
  rw [hk]
  simp only [hne, Bool.false_eq_true, if_false, hy0]
  rw [if_pos hle]

theorem map_test_point_rejects (tp : TestData) (fns : List (IdealFunction ℝ))
    (k : ℕ) (m : ℝ) (fk : IdealFunction ℝ) (y0 : ℝ)
    (hk : fns[k]? = some fk) (hy0 : fk.y_values[0]? = some y0)
    (hgt : ¬ |tp.y - y0| ≤ m * Real.sqrt 2) :
    map_test_point tp fns k m = .ok (none, tp) := by
  have hne := isEmpty_false_of_getElem fk y0 hy0
  unfold map_test_point find_closest_x
  rw [hk]
  simp only [hne, Bool.false_eq_true, if_false, hy0]
  rw [if_neg hgt]

/-- Claim C5: an observation tested against one chosen candidate (whose
curve is nonempty, so the grid lookup yields index 0) with maximum training
deviation `m` is assigned to that candidate exactly when its deviation
`|observation.y − curve.y[0]|` is at most `m * √2`; the boundary
`deviation = m * √2` is assigned (the comparison is `≤`, inclusive) and any
deviation strictly above is not. -/
theorem map_threshold_boundary (tp : TestData) (fns : List (IdealFunction ℝ))
    (k : ℕ) (m : ℝ) (fk : IdealFunction ℝ) (y0 : ℝ)
    (hk : fns[k]? = some fk) (hy0 : fk.y_values[0]? = some y0) :
    (∃ tp', map_test_point tp fns k m = .ok (some k, tp')) ↔
      |tp.y - y0| ≤ m * Real.sqrt 2 := by
  constructor
  · intro ⟨tp', htp'⟩
    by_contra hgt
    rw [map_test_point_rejects tp fns k m fk y0 hk hy0 hgt] at htp'
    simp at htp'
  · intro hle
    exact ⟨_, map_test_point_assigns tp fns k m fk y0 hk hy0 hle⟩

/-- Witness for C5 at the boundary: maximum training deviation `m = 1` and
deviation exactly `√2 = 1 * √2`; the observation is assigned. -/
theorem map_threshold_boundary_witness :
    ∃ tp', map_test_point ⟨0, Real.sqrt 2, none, none⟩ [⟨0, [0]⟩] 0 1 =
      .ok (some 0, tp') :=
  (map_threshold_boundary ⟨0, Real.sqrt 2, none, none⟩ [⟨0, [0]⟩] 0 1 ⟨0, [0]⟩ 0
    rfl rfl).mpr
    (by
      show |Real.sqrt 2 - 0| ≤ 1 * Real.sqrt 2
      rw [sub_zero, abs_of_nonneg (Real.sqrt_nonneg 2), one_mul])

/-- Claim C10: whenever `map_test_point` returns a successful outcome, an
assignment to the candidate with 0-based index `j` forces `j = k` (the
index it was called with), records the 1-based `k + 1` in the observation's
`ideal_function_no` field and some deviation in `delta_y`, while the
returned value stays the 0-based `k`; and a `none` (unassigned) outcome
leaves the observation — in particular its `delta_y` and
`ideal_function_no` fields — unchanged. -/
theorem map_point_numbering (tp : TestData) (fns : List (IdealFunction ℝ))
    (k : ℕ) (m : ℝ) (r : Option ℕ) (tp' : TestData)
    (h : map_test_point tp fns k m = .ok (r, tp')) :
    (∀ j, r = some j → j = k ∧ tp'.ideal_function_no = some (k + 1) ∧
      ∃ d, tp'.delta_y = some d) ∧
    (r = none → tp' = tp) := by
  unfold map_test_point at h
  cases hget : fns[k]? with
  | none =>
    rw [hget] at h
    simp at h
  | some fk =>
    rw [hget] at h
    dsimp only at h
    cases hfc : find_closest_x fk tp.x with
    | none =>
      rw [hfc] at h
      simp only [Except.ok.injEq, Prod.mk.injEq] at h
      obtain ⟨hr, htp⟩ := h
      constructor
      · intro j hj
        rw [← hr] at hj
        cases hj
      · intro _
        exact htp.symm
    | some ci =>
      rw [hfc] at h
      dsimp only at h
      cases hyv : fk.y_values[ci]? with
      | none =>
        rw [hyv] at h
        simp at h
      | some iy =>
        rw [hyv] at h
        dsimp only at h
        by_cases hcond : |tp.y - iy| ≤ m * Real.sqrt 2
        · rw [if_pos hcond] at h
          simp only [Except.ok.injEq, Prod.mk.injEq] at h
          obtain ⟨hr, htp⟩ := h
          constructor
          · intro j hj
            rw [← hr] at hj
            cases hj
            refine ⟨rfl, ?_, ?_⟩
            · rw [← htp]
            · exact ⟨_, by rw [← htp]⟩
          · intro hnone
            rw [← hr] at hnone
            cases hnone
        · rw [if_neg hcond] at h
          simp only [Except.ok.injEq, Prod.mk.injEq] at h
          obtain ⟨hr, htp⟩ := h
          constructor
          · intro j hj
            rw [← hr] at hj
            cases hj
          · intro _
            exact htp.symm

/-- Witness for C10 at a concrete assignment: candidate index 0, the
observation records `ideal_function_no = 0 + 1` while `map_test_point`
returns the 0-based `some 0`. -/
theorem map_point_numbering_witness :
    (∀ j, (some 0 : Option ℕ) = some j → j = 0 ∧
      (⟨0, 0, some 0, some 1⟩ : TestData).ideal_function_no = some (0 + 1) ∧
      ∃ d, (⟨0, 0, some 0, some 1⟩ : TestData).delta_y = some d) ∧
    ((some 0 : Option ℕ) = none → (⟨0, 0, some 0, some 1⟩ : TestData) =
      ⟨0, 0, none, none⟩) :=
  map_point_numbering ⟨0, 0, none, none⟩ [⟨0, [0]⟩] 0 0 (some 0)
    ⟨0, 0, some 0, some 1⟩
    (by
      have h := map_test_point_assigns ⟨0, 0, none, none⟩ [⟨0, [0]⟩] 0 0 ⟨0, [0]⟩ 0
        rfl rfl (by simp)
      simpa using h)

/-- Claim C1, behaviour at the failing input: with all four
`SeriesSelection` records available, the observation `(x = 0, y = 10)`
qualifies for the y1 series' candidate (index 0, `y[0] = 5`, deviation 5,
threshold `5 * √2`) and also for the y2 series' candidate (index 1,
`y[0] = 10`, deviation 0, threshold `0 * √2 = 0`), with strictly smaller
deviation `0 < 5`; yet `map_all_test_data` records the y1 candidate
(`ideal_function_no = some 1`, i.e. 0-based index 0, `delta_y = some 5`),
because the scan stops at the first qualifying series instead of choosing
the qualifying candidate of smallest deviation. -/
theorem map_all_first_match_not_smallest :
    map_all_test_data [⟨0, 10, none, none⟩] [⟨0, [5]⟩, ⟨0, [10]⟩]
      (fun key => if key = 0 then ⟨0, 5⟩ else ⟨1, 0⟩) =
      .ok [⟨0, 10, some 5, some 1⟩] ∧
    |(10 : ℝ) - 10| ≤ 0 * Real.sqrt 2 ∧
    ((0 : ℝ) < 5) := by
  refine ⟨?_, by simp, by norm_num⟩
  have h5 : |(10 : ℝ) - 5| ≤ 5 * Real.sqrt 2 := by
    have h := one_le_sqrt_two
    rw [show |(10 : ℝ) - 5| = 5 by rw [abs_of_nonneg] <;> norm_num]
    nlinarith
  have h0 : map_test_point ⟨0, 10, none, none⟩ [⟨0, [5]⟩, ⟨0, [10]⟩] 0 5 =
      .ok (some 0, ⟨0, 10, some 5, some 1⟩) := by
    have h := map_test_point_assigns ⟨0, 10, none, none⟩ [⟨0, [5]⟩, ⟨0, [10]⟩]
      0 5 ⟨0, [5]⟩ 5 rfl rfl h5
    rw [h]
    norm_num
  simp [map_all_test_data, try_series, h0]

/-- Claim C2, behaviour at the failing input: for a chosen curve sampled at
grid x-coordinates `[0, 1]` with y-values `[10, 20]` and an observation at
`x = 1`, the source's `_find_closest_x` returns index 0 — it never reads
the observation's x — although the grid index nearest to `x = 1` is
index 1 (per the spec-modelled nearest-grid-point lookup), so the deviation
is computed against `y[0] = 10` instead of `y[1] = 20`. -/
theorem find_closest_fixed_index_vs_nearest :
    find_closest_x ⟨0, [10, 20]⟩ (1 : ℝ) = some 0 ∧
    nearestIndexSpec [0, 1] (1 : ℝ) = some 1 := by
  constructor
  · rfl
  · have hcond : |(1 : ℝ) - 1| < |(0 : ℝ) - 1| := by
      rw [sub_self, abs_zero, show (0 : ℝ) - 1 = -1 by ring, abs_neg, abs_one]
      norm_num
    simp only [nearestIndexSpec, nearestGo]
    rw [if_pos hcond]

/-- Claim C3, behaviour at the failing input: for the same curve (grid
coverage `[0, 1]`) and an observation at `x = 100`, far outside the grid's
coverage, `_find_closest_x` still answers the placeholder index 0 instead
of failing with a not-found (GridAlignmentError) outcome — the error class
does not exist in the repository and no code path can produce an
out-of-coverage failure. -/
theorem find_closest_placeholder_outside_coverage :
    find_closest_x ⟨0, [10, 20]⟩ (100 : ℝ) = some 0 := rfl
